import Mathlib

/-!
Verification of the turn-orchestration engine of the InterviewOS interview
backend. The definitions below are a shallow embedding of
`backend/interview/engine.py` and `backend/interview/views.py`: Python
strings become `String`/`List Char`, the regular-expression operations of
`_parse` and `_build_contents` become explicit scans over character lists,
and the external generation backend becomes an outcome oracle passed to the
engine as a parameter.
-/

set_option maxRecDepth 8192

namespace InterviewOS

/-! ### Response-parser primitives (engine.py `_SIGNAL_RE`, `_parse`)

The regex is `<<<(STAY|MOVE_TO_EXPERIENCE|MOVE_TO_DONE)>>>`.  `tokenAt l`
says whether one of the three delimited control tokens starts at the head
of `l`, returning the captured group (the bare signal name) when it does.
-/

/-- Whether the pattern `p` is a prefix of `l` (executable). -/
def startsWith : List Char → List Char → Bool
  | [], _ => true
  | _ :: _, [] => false
  | p :: ps, c :: cs => p == c && startsWith ps cs

/-- The full delimited token text for a signal name, `<<<NAME>>>`. -/
def tokText (name : String) : String := "<<<" ++ name ++ ">>>"

def tokenAt (l : List Char) : Option String :=
  if startsWith (tokText "STAY").data l then some "STAY"
  else if startsWith (tokText "MOVE_TO_EXPERIENCE").data l then some "MOVE_TO_EXPERIENCE"
  else if startsWith (tokText "MOVE_TO_DONE").data l then some "MOVE_TO_DONE"
  else none

/-- Leftmost-match search of the signal regex (`_SIGNAL_RE.search`):
the captured signal of the first token occurrence, if any. -/
def findSignal : List Char → Option String
  | [] => none
  | c :: t =>
      match tokenAt (c :: t) with
      | some g => some g
      | none => findSignal t

/-- Whether some control token occurs anywhere in the text. -/
def hasTok : List Char → Bool
  | [] => false
  | c :: t => (tokenAt (c :: t)).isSome || hasTok t

/-- Single left-to-right pass removing every (non-overlapping) token
occurrence (`_SIGNAL_RE.sub("", raw)`): on a match the scan resumes after
the matched text, exactly as `re.sub` does. -/
def stripSignals : List Char → List Char
  | '<' :: '<' :: '<' :: 'S' :: 'T' :: 'A' :: 'Y' :: '>' :: '>' :: '>' :: r =>
      stripSignals r
  | '<' :: '<' :: '<' :: 'M' :: 'O' :: 'V' :: 'E' :: '_' :: 'T' :: 'O' :: '_' ::
    'E' :: 'X' :: 'P' :: 'E' :: 'R' :: 'I' :: 'E' :: 'N' :: 'C' :: 'E' ::
    '>' :: '>' :: '>' :: r =>
      stripSignals r
  | '<' :: '<' :: '<' :: 'M' :: 'O' :: 'V' :: 'E' :: '_' :: 'T' :: 'O' :: '_' ::
    'D' :: 'O' :: 'N' :: 'E' :: '>' :: '>' :: '>' :: r =>
      stripSignals r
  | c :: t => c :: stripSignals t
  | [] => []

/-- Python `\s` on ASCII text (the whitespace class used by `.strip()` and
the `\s*` in the speaker-label regexes). -/
def isSpc (c : Char) : Bool :=
  c = ' ' || c = '\t' || c = '\n' || c = '\r' || c = '\x0b' || c = '\x0c'

/-- Python `str.strip()`: remove leading and trailing whitespace. -/
def pstrip (l : List Char) : List Char :=
  ((l.dropWhile isSpc).reverse.dropWhile isSpc).reverse

/-- `re.sub(r"^\*\*Taylor:\*\*\s*", "", _)`: drop a leading bolded speaker
label together with the whitespace that follows it. -/
def stripBoldTaylor (l : List Char) : List Char :=
  if startsWith "**Taylor:**".data l then (l.drop 11).dropWhile isSpc else l

/-- `re.sub(r"^Taylor:\s*", "", _)`: drop a leading plain speaker label
together with the whitespace that follows it. -/
def stripPlainTaylor (l : List Char) : List Char :=
  if startsWith "Taylor:".data l then (l.drop 7).dropWhile isSpc else l

/-- The visible-text cleanup pipeline of `_parse`: remove all signal
tokens, strip whitespace, remove leading speaker labels (bold form first,
then plain form, as in the source). -/
def cleanText (l : List Char) : List Char :=
  stripPlainTaylor (stripBoldTaylor (pstrip (stripSignals l)))

/-- engine.py `_parse(raw)`: returns `(clean_visible_text, signal)`, the
signal defaulting to `"STAY"` when no token occurs. -/
def _parse (raw : String) : String × String :=
  (⟨cleanText raw.data⟩, (findSignal raw.data).getD "STAY")

example : _parse "Great, tell me more. <<<MOVE_TO_EXPERIENCE>>>" =
    ("Great, tell me more.", "MOVE_TO_EXPERIENCE") := by decide

example : _parse "**Taylor:** Hello there. <<<STAY>>> " =
    ("Hello there.", "STAY") := by decide

example : _parse "no token here" = ("no token here", "STAY") := by decide

example : _parse "<<<ST<<<STAY>>>AY>>>" = ("<<<STAY>>>", "STAY") := by decide

/-! ### Data model

History records as the engine receives them from the view layer
(`values("role", "stage", "text")` of `InterviewMessage` rows), and the
Gemini content items built by `_build_contents` (one text part each). -/

structure HistMsg where
  role : String
  stage : String
  text : String
deriving DecidableEq, Repr

structure Content where
  role : String
  text : String
deriving DecidableEq, Repr

/-- engine.py guard-rail ceilings (environment defaults). -/
def MAX_INTRO_TURNS : Nat := 7

def MAX_EXP_TURNS : Nat := 14

/-- engine.py `_count(history, role, stage)`. -/
def _count (history : List HistMsg) (role stage : String) : Nat :=
  (history.filter fun m => m.role == role && m.stage == stage).length

/-! ### History Normalizer (engine.py `_build_contents`) -/

/-- First pass of `_build_contents`: drop system records and blank records,
map `agent` to `model` and everything else to `user`, strip signal tokens
and speaker labels from model text, and drop entries emptied by stripping. -/
def buildRaw : List HistMsg → List Content
  | [] => []
  | m :: rest =>
      let text := pstrip m.text.data
      if text = [] || m.role == "system" then buildRaw rest
      else
        let geminiRole := if m.role == "agent" then "model" else "user"
        let text2 := if geminiRole == "model" then
            stripPlainTaylor (stripBoldTaylor (pstrip (stripSignals text)))
          else text
        if text2 = [] then buildRaw rest
        else ⟨geminiRole, ⟨text2⟩⟩ :: buildRaw rest

/-- One step of the merge loop of `_build_contents`, acting on the merged
list kept in reverse order (Python appends at the end and mutates the last
element; here we cons at the head of the reversed accumulator). -/
def mergePush (acc : List Content) (m : Content) : List Content :=
  match acc with
  | last :: rest =>
      if last.role == m.role then ⟨last.role, last.text ++ "\n" ++ m.text⟩ :: rest
      else m :: last :: rest
  | [] => [m]

/-- engine.py `_build_contents(history)`: normalize then merge adjacent
same-role entries with a newline separator. -/
def _build_contents (history : List HistMsg) : List Content :=
  ((buildRaw history).foldl mergePush []).reverse

example :
    _build_contents
      [⟨"system", "intro", "Session created."⟩,
       ⟨"agent", "intro", "**Taylor:** Hi! <<<STAY>>>"⟩,
       ⟨"user", "intro", "  "⟩,
       ⟨"user", "intro", "I am Ada."⟩,
       ⟨"user", "intro", "I like compilers."⟩] =
      [⟨"model", "Hi!"⟩, ⟨"user", "I am Ada.\nI like compilers."⟩] := by decide

/-! ### Current-user-message assembly (engine.py lines 194 to 226) -/

/-- Append the current user message to the contents, merging it into a
trailing `user` entry when one is present (engine.py lines 204 to 216). -/
def appendUserMsg (contents : List Content) (userMsg : String) : List Content :=
  match contents.getLast? with
  | some lastC =>
      if lastC.role == "user" then
        contents.dropLast ++ [⟨"user", lastC.text ++ "\n" ++ userMsg⟩]
      else contents ++ [⟨"user", userMsg⟩]
  | none => [⟨"user", userMsg⟩]

/-- Prepend a synthetic opener when the sequence would start with a
`model` entry (engine.py lines 218 to 226). -/
def ensureUserFirst (contents : List Content) : List Content :=
  match contents with
  | c :: rest =>
      if c.role == "model" then ⟨"user", "[Interview begins]"⟩ :: c :: rest else c :: rest
  | [] => []

/-- The synthetic or literal user message for this turn, then appended to
the normalized contents, then the first-entry fix-up. `sessionStage` is
the pre-guard stage and `stage` the post-guard stage, exactly as
`run_engine` uses them (engine.py lines 190 to 226). -/
def fullContents (history : List HistMsg) (eventType sessionStage stage userText : String) :
    List Content :=
  let userMsg :=
    if eventType == "start" then
      "[The interview is starting. Greet the candidate and ask your first intro question.]"
    else if eventType == "timeout" && sessionStage != stage then
      "[Due to inactivity, transition smoothly to the " ++ stage ++ " stage now.]"
    else if userText != "" then userText
    else "[Continue the interview.]"
  ensureUserFirst (appendUserMsg (_build_contents history) userMsg)

/-! ### Generation Client (engine.py lines 228 to 280) -/

/-- Outcome of one `generate_content` attempt, abstracting the external
backend: a successful reply text, a rate-limit-class error (HTTP 429 or
RESOURCE_EXHAUSTED), or any other exception. -/
inductive GenOutcome where
  | success (text : String)
  | rateLimited
  | otherError
deriving DecidableEq, Repr

/-- engine.py `MODEL_FALLBACKS` with the default `GEMINI_MODEL`. -/
def MODEL_FALLBACKS : List String :=
  ["gemini-2.0-flash", "gemini-2.5-flash-lite", "gemini-2.0-flash-lite"]

/-- The fallback loop of `run_engine`: try each candidate model in order;
a success ends the loop with no pending error, a rate-limit error moves to
the next candidate, any other error ends the loop with a pending error;
exhausting the list leaves the last rate-limit error pending.  Returns
`(raw_text, pending_error)`.  `gen` is the backend oracle, indexed by the
attempt number, and receives the request contents. -/
def tryModels (models : List String) (gen : Nat → List Content → GenOutcome)
    (contents : List Content) (i : Nat) : String × Bool :=
  match models with
  | [] => ("", false)
  | _ :: rest =>
      match gen i contents with
      | .success t => (t, false)
      | .otherError => ("", true)
      | .rateLimited =>
          match rest with
          | [] => ("", true)
          | _ :: _ => tryModels rest gen contents (i + 1)

/-- The canned fallback replies of `run_engine` (lines 261 to 280), keyed
by the post-guard stage. -/
def cannedReply (candidateName roleName stage : String) : String :=
  if stage == "intro" then
    "Hi " ++ candidateName ++ "! Welcome — I\x27m excited to chat with you about the " ++
      roleName ++ " position. Could you kick things off by telling me a bit about yourself? <<<STAY>>>"
  else if stage == "experience" then
    "I\x27d love to hear about a project you\x27ve worked on recently. What was the problem you were solving, and what was your role? <<<STAY>>>"
  else
    "Thanks for a great conversation!\n\n• Strength: You communicated your ideas clearly.\n• Gap: Try to include more concrete metrics and impact.\n• Next step: Practice the STAR method for telling project stories.\n\nBest of luck — you\x27ve got this! <<<MOVE_TO_DONE>>>"

/-! ### Stage Guard and signal reconciliation -/

/-- Timeout forcing (engine.py lines 176 to 180): on a timeout event,
`intro` moves to `experience` and `experience` moves to `done`. -/
def forceTimeout (eventType stage : String) : String :=
  if eventType == "timeout" then
    if stage == "intro" then "experience"
    else if stage == "experience" then "done"
    else stage
  else stage

/-- First count guard (engine.py lines 185 to 186). -/
def guardIntro (history : List HistMsg) (stage : String) : String :=
  if stage == "intro" && decide (_count history "agent" "intro" ≥ MAX_INTRO_TURNS) then
    "experience"
  else stage

/-- Second count guard (engine.py lines 187 to 188). -/
def guardExp (history : List HistMsg) (stage : String) : String :=
  if stage == "experience" && decide (_count history "agent" "experience" ≥ MAX_EXP_TURNS) then
    "done"
  else stage

/-- Count guards (engine.py lines 182 to 188): two sequential checks, the
second seeing the stage produced by the first. -/
def applyGuards (history : List HistMsg) (stage : String) : String :=
  guardExp history (guardIntro history stage)

/-- The post-guard stage used for prompt building, generation, canned
fallbacks and signal reconciliation. -/
def effectiveStage (history : List HistMsg) (eventType sessionStage : String) : String :=
  applyGuards history (forceTimeout eventType sessionStage)

/-- Signal application (engine.py lines 288 to 299): the model signal may
advance the post-guard stage, and a post-guard `done` stage is absorbing.
Returns `(next_stage, done)`. -/
def applySignal (stage signal : String) : String × Bool :=
  let p :=
    if signal == "MOVE_TO_EXPERIENCE" && stage == "intro" then ("experience", false)
    else if signal == "MOVE_TO_DONE" then ("done", true)
    else (stage, false)
  if stage == "done" then ("done", true) else p

/-! ### Turn Orchestrator (engine.py `run_engine`) -/

structure EngineResult where
  assistant_text : String
  next_stage : String
  done : Bool
deriving DecidableEq, Repr

/-- The raw text fed to the parser: the fallback-loop result, replaced by
the canned stage-keyed reply when the loop ended with a pending error. -/
def rawTextOf (candidateName roleName eventType sessionStage userText : String)
    (history : List HistMsg) (gen : Nat → List Content → GenOutcome) : String :=
  let stage := effectiveStage history eventType sessionStage
  let contents := fullContents history eventType sessionStage stage userText
  let pr := tryModels MODEL_FALLBACKS gen contents 0
  if pr.2 then cannedReply candidateName roleName stage else pr.1

/-- engine.py `run_engine`: the done short-circuit, guard forcing,
generation with fallback, parsing, minimum-length substitution and signal
reconciliation. -/
def run_engine (candidateName roleName eventType userText : String)
    (history : List HistMsg) (sessionStage : String)
    (gen : Nat → List Content → GenOutcome) : EngineResult :=
  if sessionStage == "done" then
    ⟨"This session is already complete. Please create a new session.", "done", true⟩
  else
    let stage := effectiveStage history eventType sessionStage
    let raw := rawTextOf candidateName roleName eventType sessionStage userText history gen
    let pr := _parse raw
    let reply :=
      if pr.1 == "" || decide (pr.1.length < 3) then
        if stage == "experience" then "Could you tell me more about that?" else "Please go on."
      else pr.1
    let nx := applySignal stage pr.2
    ⟨reply, nx.1, nx.2⟩

example :
    run_engine "Ada" "Engineer" "user_turn" "I like compilers." [] "intro"
      (fun _ _ => .success "Nice! Tell me about a project. <<<STAY>>>") =
      ⟨"Nice! Tell me about a project.", "intro", false⟩ := by decide

example :
    run_engine "Ada" "Engineer" "user_turn" "hello" [] "done"
      (fun _ _ => .success "ignored") =
      ⟨"This session is already complete. Please create a new session.", "done", true⟩ := by
  decide

/-! ### Idempotent Turn Handler (views.py `_handle_next_turn`)

The boundary concerns already handled before the interesting logic
(ingest-secret check, JSON decoding, session lookup) are omitted; the
handler below starts from the loaded session and its chronologically
ordered messages.  Time is abstracted by the elapsed seconds in the
current stage and the two configured timeout thresholds. -/

/-- A persisted `InterviewMessage` row: role, stage tag, text, and the
`event_id` stored in `meta` when the triggering event carried one. -/
structure Msg where
  role : String
  stage : String
  text : String
  eventId : Option String
deriving DecidableEq, Repr

/-- The session fields the handler reads and writes. -/
structure SessionSnap where
  candidateName : String
  roleName : String
  stage : String
  status : String
deriving DecidableEq, Repr

structure ServerState where
  session : SessionSnap
  messages : List Msg
deriving DecidableEq, Repr

/-- views.py lines 141 to 146: mark a freshly created session as running
on its first interaction. -/
def markRunning (s : SessionSnap) : SessionSnap :=
  if s.status == "created" then { s with status := "running" } else s

/-- The `role`, `stage`, `text` projection the handler feeds to the
engine (views.py line 192). -/
def toHist (msgs : List Msg) : List HistMsg :=
  msgs.map fun m => ⟨m.role, m.stage, m.text⟩

/-- The text of the latest `agent` record
(`filter(role=AGENT).order_by("-created_at").first()`), or `""` when the
session has none. -/
def lastAgentText (msgs : List Msg) : String :=
  match (msgs.filter fun m => m.role == "agent").getLast? with
  | some m => m.text
  | none => ""

/-- The user record persisted for a `user_turn` event before the engine
call (views.py lines 168 to 179): exactly one row per accepted user
answer, tagged with the event id when one was supplied. -/
def userRecorded (st : ServerState) (eventType userText eventId : String) : List Msg :=
  if eventType == "user_turn" then
    st.messages ++ [⟨"user", (markRunning st.session).stage, userText,
      if eventId != "" then some eventId else none⟩]
  else st.messages

/-- The time-based fallback (views.py lines 181 to 189): the event type
fed to the engine becomes `timeout` when the session has sat in its
current stage beyond the configured threshold. -/
def engineEvent (st : ServerState) (eventType : String)
    (elapsedS introTimeoutS expTimeoutS : Nat) : String :=
  if (markRunning st.session).stage == "intro" && decide (elapsedS ≥ introTimeoutS) then
    "timeout"
  else if (markRunning st.session).stage == "experience" && decide (elapsedS ≥ expTimeoutS) then
    "timeout"
  else eventType

/-- The engine result of a non-deduplicated, validated turn (views.py
lines 191 to 203). -/
def mainOut (st : ServerState) (eventType userText eventId : String)
    (elapsedS introTimeoutS expTimeoutS : Nat)
    (gen : Nat → List Content → GenOutcome) : EngineResult :=
  run_engine (markRunning st.session).candidateName (markRunning st.session).roleName
    (engineEvent st eventType elapsedS introTimeoutS expTimeoutS) userText
    (toHist (userRecorded st eventType userText eventId)) (markRunning st.session).stage gen

/-- The response and state update of a non-deduplicated, validated turn
(views.py lines 205 to 232): persist the agent record, advance the stage,
mark the session ended when done. -/
def handleMain (st : ServerState) (eventType userText eventId : String)
    (elapsedS introTimeoutS expTimeoutS : Nat)
    (gen : Nat → List Content → GenOutcome) :
    Except String (String × String × Bool) × ServerState :=
  (.ok ((mainOut st eventType userText eventId elapsedS introTimeoutS expTimeoutS gen).assistant_text,
        (mainOut st eventType userText eventId elapsedS introTimeoutS expTimeoutS gen).next_stage,
        (mainOut st eventType userText eventId elapsedS introTimeoutS expTimeoutS gen).done),
   ⟨{ markRunning st.session with
        stage := (mainOut st eventType userText eventId elapsedS introTimeoutS expTimeoutS gen).next_stage,
        status := if (mainOut st eventType userText eventId elapsedS introTimeoutS expTimeoutS gen).done
          then "ended" else (markRunning st.session).status },
    userRecorded st eventType userText eventId ++
      [⟨"agent",
        (mainOut st eventType userText eventId elapsedS introTimeoutS expTimeoutS gen).next_stage,
        (mainOut st eventType userText eventId elapsedS introTimeoutS expTimeoutS gen).assistant_text,
        if eventId != "" then some eventId else none⟩]⟩)

/-- views.py `_handle_next_turn` after the boundary checks: idempotency
short-circuit, `user_turn` validation, then the main turn path.  Returns
the JSON response (an error message or `(assistant_text, stage, done)`)
together with the new server state. -/
def _handle_next_turn (st : ServerState) (eventType userText eventId : String)
    (elapsedS introTimeoutS expTimeoutS : Nat)
    (gen : Nat → List Content → GenOutcome) :
    Except String (String × String × Bool) × ServerState :=
  if eventId != "" && st.messages.any (fun m => m.eventId == some eventId) then
    (.ok (lastAgentText st.messages, (markRunning st.session).stage,
      (markRunning st.session).stage == "done"),
     ⟨markRunning st.session, st.messages⟩)
  else if eventType == "user_turn" && userText == "" then
    (.error "user_text required for event_type=user_turn", ⟨markRunning st.session, st.messages⟩)
  else handleMain st eventType userText eventId elapsedS introTimeoutS expTimeoutS gen

example :
    (_handle_next_turn ⟨⟨"Ada", "Engineer", "intro", "created"⟩, []⟩
        "start" "" "ev-1" 0 600 900
        (fun _ _ => .success "Hello Ada! Tell me about yourself. <<<STAY>>>")).1 =
      .ok ("Hello Ada! Tell me about yourself.", "intro", false) := by rfl

/-! ### Lemmas about the token scanner -/

theorem startsWith_iff {p l : List Char} : startsWith p l = true ↔ ∃ r, l = p ++ r := by
  induction p generalizing l with
  | nil => simp [startsWith]
  | cons a ps ih =>
      cases l with
      | nil => simp [startsWith]
      | cons c cs =>
          simp only [startsWith, Bool.and_eq_true, beq_iff_eq, ih, List.cons_append]
          constructor
          · rintro ⟨rfl, r, rfl⟩
            exact ⟨r, rfl⟩
          · rintro ⟨r, heq⟩
            obtain ⟨rfl, rfl⟩ := List.cons.inj heq
            exact ⟨rfl, r, rfl⟩

theorem tokenAt_some_mem {l : List Char} {g : String} (h : tokenAt l = some g) :
    g = "STAY" ∨ g = "MOVE_TO_EXPERIENCE" ∨ g = "MOVE_TO_DONE" := by
  unfold tokenAt at h
  split at h
  · exact Or.inl (Option.some.inj h).symm
  · split at h
    · exact Or.inr (Or.inl (Option.some.inj h).symm)
    · split at h
      · exact Or.inr (Or.inr (Option.some.inj h).symm)
      · exact absurd h (by simp)

theorem tokenAt_some_decomp {l : List Char} {g : String} (h : tokenAt l = some g) :
    ∃ r, l = (tokText g).data ++ r := by
  unfold tokenAt at h
  split at h
  · rename_i hs
    obtain rfl : g = "STAY" := (Option.some.inj h).symm
    exact startsWith_iff.mp hs
  · split at h
    · rename_i hs
      obtain rfl : g = "MOVE_TO_EXPERIENCE" := (Option.some.inj h).symm
      exact startsWith_iff.mp hs
    · split at h
      · rename_i hs
        obtain rfl : g = "MOVE_TO_DONE" := (Option.some.inj h).symm
        exact startsWith_iff.mp hs
      · exact absurd h (by simp)

theorem tokenAt_append_tok {g : String}
    (hg : g = "STAY" ∨ g = "MOVE_TO_EXPERIENCE" ∨ g = "MOVE_TO_DONE")
    (r : List Char) : tokenAt ((tokText g).data ++ r) = some g := by
  rcases hg with rfl | rfl | rfl <;> rfl

theorem findSignal_cons_none {c : Char} {t : List Char} (h : tokenAt (c :: t) = none) :
    findSignal (c :: t) = findSignal t := by
  simp [findSignal, h]

theorem findSignal_cons_some {c : Char} {t : List Char} {g : String}
    (h : tokenAt (c :: t) = some g) : findSignal (c :: t) = some g := by
  simp [findSignal, h]

theorem findSignal_mem {l : List Char} {g : String} (h : findSignal l = some g) :
    g = "STAY" ∨ g = "MOVE_TO_EXPERIENCE" ∨ g = "MOVE_TO_DONE" := by
  induction l with
  | nil => simp [findSignal] at h
  | cons c t ih =>
      cases htok : tokenAt (c :: t) with
      | some g2 =>
          rw [findSignal_cons_some htok] at h
          exact (Option.some.inj h) ▸ tokenAt_some_mem htok
      | none =>
          rw [findSignal_cons_none htok] at h
          exact ih h

theorem hasTok_cons (c : Char) (t : List Char) :
    hasTok (c :: t) = ((tokenAt (c :: t)).isSome || hasTok t) := rfl

/-- A token occurs in `l` exactly when one of the three delimited tokens is
an infix of `l`. -/
theorem hasTok_iff {l : List Char} :
    hasTok l = true ↔ ∃ g, (g = "STAY" ∨ g = "MOVE_TO_EXPERIENCE" ∨ g = "MOVE_TO_DONE") ∧
      (tokText g).data <:+: l := by
  constructor
  · intro h
    induction l with
    | nil => simp [hasTok] at h
    | cons c t ih =>
        rw [hasTok_cons] at h
        rcases Bool.or_eq_true_iff.mp h with h1 | h2
        · cases htok : tokenAt (c :: t) with
          | some g =>
              obtain ⟨r, hr⟩ := tokenAt_some_decomp htok
              exact ⟨g, tokenAt_some_mem htok, [], r, by simp [hr]⟩
          | none => rw [htok] at h1; simp at h1
        · obtain ⟨g, hg, s, t2, ht⟩ := ih h2
          exact ⟨g, hg, c :: s, t2, by simp [← ht]⟩
  · rintro ⟨g, hg, s, t2, rfl⟩
    induction s with
    | nil =>
        rcases hg with rfl | rfl | rfl <;> rfl
    | cons c s ih =>
        rw [List.cons_append, List.cons_append, hasTok_cons, ih, Bool.or_true]

theorem hasTok_false_mono {l₁ l₂ : List Char} (hinf : l₁ <:+: l₂)
    (h : hasTok l₂ = false) : hasTok l₁ = false := by
  by_contra hne
  obtain ⟨g, hg, hi⟩ := hasTok_iff.mp (eq_true_of_ne_false hne)
  have : hasTok l₂ = true := hasTok_iff.mpr ⟨g, hg, hi.trans hinf⟩
  simp [this] at h

/-! ### The cleanup pipeline only shrinks the text -/

theorem pstrip_shrinks (l : List Char) : pstrip l <:+: l := by
  unfold pstrip
  have h1 : l.dropWhile isSpc <:+ l := List.dropWhile_suffix isSpc
  have h2 : ((l.dropWhile isSpc).reverse.dropWhile isSpc).reverse <+: l.dropWhile isSpc := by
    rw [← List.reverse_suffix]
    simpa using List.dropWhile_suffix (l := (l.dropWhile isSpc).reverse) isSpc
  exact h2.isInfix.trans h1.isInfix

theorem stripBoldTaylor_shrinks (l : List Char) : stripBoldTaylor l <:+: l := by
  unfold stripBoldTaylor
  split
  · exact ((List.dropWhile_suffix isSpc).trans (List.drop_suffix 11 l)).isInfix
  · exact ⟨[], [], by simp⟩

theorem stripPlainTaylor_shrinks (l : List Char) : stripPlainTaylor l <:+: l := by
  unfold stripPlainTaylor
  split
  · exact ((List.dropWhile_suffix isSpc).trans (List.drop_suffix 7 l)).isInfix
  · exact ⟨[], [], by simp⟩

theorem cleanText_shrinks (l : List Char) : cleanText l <:+: stripSignals l :=
  (stripPlainTaylor_shrinks _).trans
    ((stripBoldTaylor_shrinks _).trans (pstrip_shrinks _))

/-! ### Stage-logic lemmas -/

/-- Position of a stage in the intro-experience-done order. -/
def stageRank (s : String) : Nat :=
  if s == "intro" then 0 else if s == "experience" then 1 else 2

theorem guardIntro_out (h : List HistMsg) (s : String) :
    guardIntro h s = "experience" ∨ guardIntro h s = s := by
  unfold guardIntro
  split
  · exact Or.inl rfl
  · exact Or.inr rfl

theorem guardExp_out (h : List HistMsg) (s : String) :
    guardExp h s = "done" ∨ guardExp h s = s := by
  unfold guardExp
  split
  · exact Or.inl rfl
  · exact Or.inr rfl

theorem forceTimeout_out (et s : String) :
    forceTimeout et s = "experience" ∨ forceTimeout et s = "done" ∨ forceTimeout et s = s := by
  unfold forceTimeout
  split
  · split
    · exact Or.inl rfl
    · split
      · exact Or.inr (Or.inl rfl)
      · exact Or.inr (Or.inr rfl)
  · exact Or.inr (Or.inr rfl)

theorem applyGuards_out (h : List HistMsg) (s : String) :
    applyGuards h s = "experience" ∨ applyGuards h s = "done" ∨ applyGuards h s = s := by
  unfold applyGuards
  rcases guardExp_out h (guardIntro h s) with he | he <;> rw [he]
  · exact Or.inr (Or.inl rfl)
  · rcases guardIntro_out h s with hi | hi <;> rw [hi]
    · exact Or.inl rfl
    · exact Or.inr (Or.inr rfl)

theorem effectiveStage_out (h : List HistMsg) (et ss : String) :
    effectiveStage h et ss = "experience" ∨ effectiveStage h et ss = "done" ∨
      effectiveStage h et ss = ss := by
  unfold effectiveStage
  rcases applyGuards_out h (forceTimeout et ss) with ha | ha | ha <;> rw [ha]
  · exact Or.inl rfl
  · exact Or.inr (Or.inl rfl)
  · rcases forceTimeout_out et ss with hf | hf | hf <;> rw [hf]
    · exact Or.inl rfl
    · exact Or.inr (Or.inl rfl)
    · exact Or.inr (Or.inr rfl)

theorem applySignal_out (s sig : String) :
    (applySignal s sig).1 = "experience" ∨ (applySignal s sig).1 = "done" ∨
      (applySignal s sig).1 = s := by
  unfold applySignal
  split
  all_goals split
  all_goals try split
  all_goals simp

/-- With the done short-circuit not taken, `run_engine` is the composition
of guard forcing, generation, parsing, substitution and signal
application. -/
theorem run_engine_eq (cn rn et ut : String) (h : List HistMsg) (ss : String)
    (gen : Nat → List Content → GenOutcome) (hss : (ss == "done") = false) :
    run_engine cn rn et ut h ss gen =
      ⟨(if (_parse (rawTextOf cn rn et ss ut h gen)).1 == "" ||
            decide ((_parse (rawTextOf cn rn et ss ut h gen)).1.length < 3) then
          if effectiveStage h et ss == "experience" then "Could you tell me more about that?"
          else "Please go on."
        else (_parse (rawTextOf cn rn et ss ut h gen)).1),
       (applySignal (effectiveStage h et ss) (_parse (rawTextOf cn rn et ss ut h gen)).2).1,
       (applySignal (effectiveStage h et ss) (_parse (rawTextOf cn rn et ss ut h gen)).2).2⟩ := by
  unfold run_engine
  rw [hss]
  rfl

/-- The orchestrator never returns empty spoken text. -/
theorem run_engine_text_ne (cn rn et ut : String) (h : List HistMsg) (ss : String)
    (gen : Nat → List Content → GenOutcome) :
    (run_engine cn rn et ut h ss gen).assistant_text ≠ "" := by
  unfold run_engine
  split
  · simp
  · simp only
    split
    · split <;> simp
    · rename_i hcond
      intro heq
      apply hcond
      simp [heq]

/-! ### Claim theorems -/

/-- The transition table as the specification states it (post-guard stage
and model signal to next stage). -/
def specNext (s g : String) : String :=
  if s == "done" then "done"
  else if s == "intro" then
    if g == "STAY" then "intro"
    else if g == "MOVE_TO_EXPERIENCE" then "experience"
    else "done"
  else
    if g == "STAY" then "experience"
    else if g == "MOVE_TO_EXPERIENCE" then "experience"
    else "done"

/-- Claim C1: every parsed signal is one of the three token names; for
every post-guard stage and parsed signal the signal-application step of
`run_engine` follows the fixed transition table, with the `done` flag true
exactly when the next stage is `done`; and outside the done short-circuit
`run_engine` returns exactly the pair computed by that step on the
post-guard stage and the parsed signal. -/
theorem c1_transition_table :
    (∀ raw : String, (_parse raw).2 = "STAY" ∨ (_parse raw).2 = "MOVE_TO_EXPERIENCE" ∨
      (_parse raw).2 = "MOVE_TO_DONE") ∧
    (∀ s ∈ ["intro", "experience", "done"], ∀ g ∈ ["STAY", "MOVE_TO_EXPERIENCE", "MOVE_TO_DONE"],
      (applySignal s g).1 = specNext s g ∧
        ((applySignal s g).2 = true ↔ (applySignal s g).1 = "done")) ∧
    (∀ cn rn et ut h ss gen, (ss == "done") = false →
      ((run_engine cn rn et ut h ss gen).next_stage, (run_engine cn rn et ut h ss gen).done) =
        applySignal (effectiveStage h et ss) ((_parse (rawTextOf cn rn et ss ut h gen)).2)) := by
  refine ⟨?_, by decide, ?_⟩
  · intro raw
    unfold _parse
    cases hf : findSignal raw.data with
    | none => simp
    | some g => simpa using findSignal_mem hf
  · intro cn rn et ut h ss gen hss
    rw [run_engine_eq cn rn et ut h ss gen hss]

theorem c1_transition_table_witness :
    ((_parse "hello <<<MOVE_TO_DONE>>>").2 = "STAY" ∨
      (_parse "hello <<<MOVE_TO_DONE>>>").2 = "MOVE_TO_EXPERIENCE" ∨
      (_parse "hello <<<MOVE_TO_DONE>>>").2 = "MOVE_TO_DONE") ∧
    ((applySignal "intro" "MOVE_TO_EXPERIENCE").1 = specNext "intro" "MOVE_TO_EXPERIENCE" ∧
      ((applySignal "intro" "MOVE_TO_EXPERIENCE").2 = true ↔
        (applySignal "intro" "MOVE_TO_EXPERIENCE").1 = "done")) ∧
    (((run_engine "Ada" "Engineer" "user_turn" "hi" [] "intro"
          fun _ _ => .success "Ok. <<<STAY>>>").next_stage,
      (run_engine "Ada" "Engineer" "user_turn" "hi" [] "intro"
          fun _ _ => .success "Ok. <<<STAY>>>").done) =
        applySignal (effectiveStage [] "user_turn" "intro")
          ((_parse (rawTextOf "Ada" "Engineer" "user_turn" "intro" "hi" []
            fun _ _ => .success "Ok. <<<STAY>>>")).2)) :=
  ⟨c1_transition_table.1 "hello <<<MOVE_TO_DONE>>>",
   c1_transition_table.2.1 "intro" (by decide) "MOVE_TO_EXPERIENCE" (by decide),
   c1_transition_table.2.2 "Ada" "Engineer" "user_turn" "hi" [] "intro"
     (fun _ _ => .success "Ok. <<<STAY>>>") (by decide)⟩

/-- Claim C3: the count guards force `intro` to `experience` at
`MAX_INTRO_TURNS` prior intro-stage agent records and `experience` to
`done` at `MAX_EXP_TURNS` prior experience-stage agent records, applied in
sequence, so the post-guard stage (the stage generation sees) is `intro`
or `experience` only below the respective ceiling, and both ceilings
reached force `done`. -/
theorem c3_guard_ceilings (h : List HistMsg) (s : String) :
    (s = "intro" → _count h "agent" "intro" ≥ MAX_INTRO_TURNS → guardIntro h s = "experience") ∧
    (s = "experience" → _count h "agent" "experience" ≥ MAX_EXP_TURNS → guardExp h s = "done") ∧
    (applyGuards h s = guardExp h (guardIntro h s)) ∧
    (applyGuards h s = "intro" → _count h "agent" "intro" < MAX_INTRO_TURNS) ∧
    (applyGuards h s = "experience" → _count h "agent" "experience" < MAX_EXP_TURNS) ∧
    ((s = "intro" ∨ s = "experience") → _count h "agent" "intro" ≥ MAX_INTRO_TURNS →
      _count h "agent" "experience" ≥ MAX_EXP_TURNS → applyGuards h s = "done") ∧
    (∀ et ss, effectiveStage h et ss = applyGuards h (forceTimeout et ss)) := by
  have hIntro : ∀ s', s' = "intro" → _count h "agent" "intro" ≥ MAX_INTRO_TURNS →
      guardIntro h s' = "experience" := by
    rintro s' rfl hge
    simp [guardIntro, hge]
  have hExp : ∀ s', s' = "experience" → _count h "agent" "experience" ≥ MAX_EXP_TURNS →
      guardExp h s' = "done" := by
    rintro s' rfl hge
    simp [guardExp, hge]
  refine ⟨hIntro s, hExp s, rfl, ?_, ?_, ?_, fun et ss => rfl⟩
  · intro heq
    unfold applyGuards at heq
    rcases guardExp_out h (guardIntro h s) with he | he <;> rw [he] at heq
    · exact absurd heq (by decide)
    · by_contra hge
      push_neg at hge
      rcases guardIntro_out h s with hi | hi <;> rw [hi] at heq
      · exact absurd heq (by decide)
      · rw [heq] at hi
        rw [hIntro "intro" rfl hge] at hi
        exact absurd hi (by decide)
  · intro heq
    unfold applyGuards guardExp at heq
    split at heq
    · exact absurd heq (by decide)
    · rename_i hcond
      rw [heq] at hcond
      simpa using hcond
  · rintro (rfl | rfl) hN1 hN2
    · unfold applyGuards
      rw [hIntro "intro" rfl hN1, hExp "experience" rfl hN2]
    · unfold applyGuards
      have : guardIntro h "experience" = "experience" := by simp [guardIntro]
      rw [this, hExp "experience" rfl hN2]

theorem c3_guard_ceilings_witness :
    guardIntro (List.replicate 7 ⟨"agent", "intro", "q"⟩) "intro" = "experience" ∧
    guardExp (List.replicate 14 ⟨"agent", "experience", "q"⟩) "experience" = "done" ∧
    applyGuards
      (List.replicate 7 ⟨"agent", "intro", "q"⟩ ++
        List.replicate 14 ⟨"agent", "experience", "q"⟩) "intro" = "done" :=
  ⟨(c3_guard_ceilings (List.replicate 7 ⟨"agent", "intro", "q"⟩) "intro").1 rfl (by decide),
   (c3_guard_ceilings (List.replicate 14 ⟨"agent", "experience", "q"⟩) "experience").2.1 rfl
     (by decide),
   (c3_guard_ceilings
      (List.replicate 7 ⟨"agent", "intro", "q"⟩ ++
        List.replicate 14 ⟨"agent", "experience", "q"⟩) "intro").2.2.2.2.2.1
     (Or.inl rfl) (by decide) (by decide)⟩

theorem run_engine_next_eq (cn rn et ut : String) (h : List HistMsg) (ss : String)
    (gen : Nat → List Content → GenOutcome) (hss : (ss == "done") = false) :
    (run_engine cn rn et ut h ss gen).next_stage =
      (applySignal (effectiveStage h et ss) ((_parse (rawTextOf cn rn et ss ut h gen)).2)).1 := by
  rw [run_engine_eq cn rn et ut h ss gen hss]

/-- Claim C2: the returned stage is never earlier than the session stage
in the order intro, experience, done, and is always one of the three; a
`done` session short-circuits to the fixed already-complete reply with no
dependence on the generation oracle. -/
theorem c2_monotone_absorbing (cn rn et ut : String) (h : List HistMsg) (ss : String)
    (gen : Nat → List Content → GenOutcome)
    (hss : ss = "intro" ∨ ss = "experience" ∨ ss = "done") :
    stageRank ss ≤ stageRank (run_engine cn rn et ut h ss gen).next_stage ∧
    ((run_engine cn rn et ut h ss gen).next_stage = "intro" ∨
      (run_engine cn rn et ut h ss gen).next_stage = "experience" ∨
      (run_engine cn rn et ut h ss gen).next_stage = "done") ∧
    (ss = "done" → run_engine cn rn et ut h ss gen =
      ⟨"This session is already complete. Please create a new session.", "done", true⟩) := by
  rcases hss with rfl | rfl | rfl
  · have hnext := run_engine_next_eq cn rn et ut h "intro" gen rfl
    refine ⟨?_, ?_, fun hcon => absurd hcon (by decide)⟩
    · have h0 : stageRank "intro" = 0 := rfl
      rw [h0]
      exact Nat.zero_le _
    · rw [hnext]
      rcases applySignal_out (effectiveStage h et "intro")
          ((_parse (rawTextOf cn rn et "intro" ut h gen)).2) with hA | hA | hA
      · exact Or.inr (Or.inl hA)
      · exact Or.inr (Or.inr hA)
      · rcases effectiveStage_out h et "intro" with hE | hE | hE
        · exact Or.inr (Or.inl (hA.trans hE))
        · exact Or.inr (Or.inr (hA.trans hE))
        · exact Or.inl (hA.trans hE)
  · have hnext := run_engine_next_eq cn rn et ut h "experience" gen rfl
    have hmem : (run_engine cn rn et ut h "experience" gen).next_stage = "experience" ∨
        (run_engine cn rn et ut h "experience" gen).next_stage = "done" := by
      rw [hnext]
      rcases applySignal_out (effectiveStage h et "experience")
          ((_parse (rawTextOf cn rn et "experience" ut h gen)).2) with hA | hA | hA
      · exact Or.inl hA
      · exact Or.inr hA
      · rcases effectiveStage_out h et "experience" with hE | hE | hE
        · exact Or.inl (hA.trans hE)
        · exact Or.inr (hA.trans hE)
        · exact Or.inl (hA.trans hE)
    refine ⟨?_, ?_, fun hcon => absurd hcon (by decide)⟩
    · have h1 : stageRank "experience" = 1 := rfl
      rcases hmem with hm | hm <;> rw [h1, hm] <;> decide
    · rcases hmem with hm | hm
      · exact Or.inr (Or.inl hm)
      · exact Or.inr (Or.inr hm)
  · have hrun : run_engine cn rn et ut h "done" gen =
        ⟨"This session is already complete. Please create a new session.", "done", true⟩ := rfl
    refine ⟨?_, ?_, fun _ => hrun⟩
    · rw [hrun]
    · rw [hrun]
      exact Or.inr (Or.inr rfl)

theorem c2_monotone_absorbing_witness :
    (stageRank "experience" ≤
      stageRank (run_engine "Ada" "Engineer" "user_turn" "hi" [] "experience"
        (fun _ _ => .success "Good. <<<MOVE_TO_DONE>>>")).next_stage) ∧
    (run_engine "Ada" "Engineer" "user_turn" "hi" [] "done"
        (fun _ _ => .success "ignored") =
      ⟨"This session is already complete. Please create a new session.", "done", true⟩) :=
  ⟨(c2_monotone_absorbing "Ada" "Engineer" "user_turn" "hi" [] "experience"
      (fun _ _ => .success "Good. <<<MOVE_TO_DONE>>>") (Or.inr (Or.inl rfl))).1,
   (c2_monotone_absorbing "Ada" "Engineer" "user_turn" "hi" [] "done"
      (fun _ _ => .success "ignored") (Or.inr (Or.inr rfl))).2.2 rfl⟩

/-- Claim C4 fails as stated: with a history already holding
`MAX_EXP_TURNS` experience-tagged agent records, a timeout at `intro`
cascades through both guards to `done`, not `experience`. -/
theorem c4_counterexample :
    (run_engine "Ada" "Engineer" "timeout" ""
      (List.replicate 14 ⟨"agent", "experience", "q"⟩) "intro"
      (fun _ _ => .success "Alright, moving on. <<<STAY>>>")).next_stage ≠ "experience" := by
  decide

/-- Claim C4 (amended): provided the history holds fewer than
`MAX_EXP_TURNS` experience-tagged agent records, a timeout event at stage
`intro` forces the pre-generation stage to `experience`; a parsed `STAY`
signal then leaves `next_stage` at `experience`, and any signal can only
move an `experience` stage forward to `done`, never backward. -/
theorem c4_timeout_forces_experience (cn rn ut : String) (h : List HistMsg)
    (gen : Nat → List Content → GenOutcome)
    (hexp : _count h "agent" "experience" < MAX_EXP_TURNS) :
    effectiveStage h "timeout" "intro" = "experience" ∧
    ((_parse (rawTextOf cn rn "timeout" "intro" ut h gen)).2 = "STAY" →
      (run_engine cn rn "timeout" ut h "intro" gen).next_stage = "experience") ∧
    (∀ sig, (applySignal "experience" sig).1 = "experience" ∨
      (applySignal "experience" sig).1 = "done") := by
  have hdec : decide (_count h "agent" "experience" ≥ MAX_EXP_TURNS) = false :=
    decide_eq_false (by omega)
  have hst : effectiveStage h "timeout" "intro" = "experience" := by
    simp [effectiveStage, forceTimeout, applyGuards, guardIntro, guardExp, hdec]
  refine ⟨hst, ?_, ?_⟩
  · intro hsig
    rw [run_engine_next_eq cn rn "timeout" ut h "intro" gen rfl, hsig, hst]
    rfl
  · intro sig
    rcases applySignal_out "experience" sig with hA | hA | hA
    · exact Or.inl hA
    · exact Or.inr hA
    · exact Or.inl hA

theorem c4_timeout_forces_experience_witness :
    effectiveStage [] "timeout" "intro" = "experience" ∧
    (run_engine "Ada" "Engineer" "timeout" "" [] "intro"
      (fun _ _ => .success "Let us continue. <<<STAY>>>")).next_stage = "experience" :=
  ⟨(c4_timeout_forces_experience "Ada" "Engineer" "" []
      (fun _ _ => .success "Let us continue. <<<STAY>>>") (by decide)).1,
   (c4_timeout_forces_experience "Ada" "Engineer" "" []
      (fun _ _ => .success "Let us continue. <<<STAY>>>") (by decide)).2.1 (by decide)⟩

/-- Claim C9: when the parsed visible text is empty or shorter than three
characters, the orchestrator substitutes the stage-appropriate generic
prompt, and the returned assistant text is never empty. -/
theorem c9_min_length_substitute (cn rn et ut : String) (h : List HistMsg) (ss : String)
    (gen : Nat → List Content → GenOutcome) (hss : (ss == "done") = false) :
    (((_parse (rawTextOf cn rn et ss ut h gen)).1 = "" ∨
        (_parse (rawTextOf cn rn et ss ut h gen)).1.length < 3) →
      (run_engine cn rn et ut h ss gen).assistant_text =
        (if effectiveStage h et ss == "experience" then "Could you tell me more about that?"
         else "Please go on.")) ∧
    (run_engine cn rn et ut h ss gen).assistant_text ≠ "" := by
  refine ⟨?_, run_engine_text_ne cn rn et ut h ss gen⟩
  intro hshort
  have hcond : ((_parse (rawTextOf cn rn et ss ut h gen)).1 == "" ||
      decide ((_parse (rawTextOf cn rn et ss ut h gen)).1.length < 3)) = true := by
    rcases hshort with hs | hs <;> simp [hs]
  rw [run_engine_eq cn rn et ut h ss gen hss]
  simp [hcond]

theorem c9_min_length_substitute_witness :
    (run_engine "Ada" "Engineer" "user_turn" "hi" [] "intro"
      (fun _ _ => .success "<<<STAY>>>")).assistant_text =
      (if effectiveStage [] "user_turn" "intro" == "experience" then
        "Could you tell me more about that?" else "Please go on.") ∧
    (run_engine "Ada" "Engineer" "user_turn" "hi" [] "intro"
      (fun _ _ => .success "<<<STAY>>>")).assistant_text ≠ "" :=
  ⟨(c9_min_length_substitute "Ada" "Engineer" "user_turn" "hi" [] "intro"
      (fun _ _ => .success "<<<STAY>>>") (by decide)).1 (Or.inl (by decide)),
   (c9_min_length_substitute "Ada" "Engineer" "user_turn" "hi" [] "intro"
      (fun _ _ => .success "<<<STAY>>>") (by decide)).2⟩

theorem findSignal_none_of {l : List Char}
    (h : ∀ i < l.length, tokenAt (l.drop i) = none) : findSignal l = none := by
  induction l with
  | nil => rfl
  | cons c t ih =>
      rw [findSignal_cons_none (by simpa using h 0 (by simp))]
      exact ih fun i hi => by simpa [List.drop_succ_cons] using h (i + 1) (by simpa using hi)

/-- Claim C7: the parser takes as signal the leftmost token occurrence
anywhere in the text, defaults to `STAY` when no token occurs anywhere,
and on the example reply at stage intro yields the stripped visible text,
the `MOVE_TO_EXPERIENCE` signal and next stage `experience`. -/
theorem c7_parser_first_token :
    (∀ (a b : List Char) (g : String),
      (g = "STAY" ∨ g = "MOVE_TO_EXPERIENCE" ∨ g = "MOVE_TO_DONE") →
      (∀ i < a.length, tokenAt ((a ++ (tokText g).data ++ b).drop i) = none) →
      findSignal (a ++ (tokText g).data ++ b) = some g) ∧
    (∀ s : String, (∀ i < s.data.length, tokenAt (s.data.drop i) = none) →
      (_parse s).2 = "STAY") ∧
    (_parse "Great, tell me more. <<<MOVE_TO_EXPERIENCE>>>" =
      ("Great, tell me more.", "MOVE_TO_EXPERIENCE") ∧
      applySignal "intro" "MOVE_TO_EXPERIENCE" = ("experience", false)) := by
  refine ⟨?_, ?_, by decide⟩
  · intro a b g hg
    induction a with
    | nil =>
        intro _
        rcases hg with rfl | rfl | rfl <;> rfl
    | cons c a ih =>
        intro hno
        have h0 : tokenAt (c :: (a ++ (tokText g).data ++ b)) = none := by
          simpa using hno 0 (by simp)
        simp only [List.cons_append]
        rw [findSignal_cons_none h0]
        exact ih fun i hi => by
          simpa [List.drop_succ_cons] using hno (i + 1) (by simpa using Nat.succ_lt_succ hi)
  · intro s hno
    unfold _parse
    rw [findSignal_none_of hno]
    rfl

theorem c7_parser_first_token_witness :
    findSignal ("Hi. ".data ++ (tokText "STAY").data ++ " ok".data) = some "STAY" ∧
    (_parse "hello there").2 = "STAY" :=
  ⟨c7_parser_first_token.1 "Hi. ".data " ok".data "STAY" (Or.inl rfl) (by decide),
   c7_parser_first_token.2.1 "hello there" (by decide)⟩

/-- Claim C10 fails as stated: the single-pass token removal of the parser
can splice surrounding text into a fresh token, which is then returned. -/
theorem c10_counterexample :
    hasTok ((run_engine "Ada" "Engineer" "user_turn" "hi" [] "intro"
      (fun _ _ => .success "<<<ST<<<STAY>>>AY>>>")).assistant_text.data) = true := by decide

/-- Claim C10 (amended): the parser removes the token occurrences of the
raw text in a single left-to-right pass, which for adversarial raw text
can re-form a token out of the surrounding characters; whenever that pass
leaves no token — in particular for any reply following the instructed
grammar of visible text followed by one trailing token — the returned
assistant text contains no control token, because the whitespace and
speaker-label cleanup only shrinks the text and every fixed reply text is
token-free. -/
theorem c10_no_token_leak (cn rn et ut : String) (h : List HistMsg) (ss : String)
    (gen : Nat → List Content → GenOutcome)
    (hclean : hasTok (stripSignals (rawTextOf cn rn et ss ut h gen).data) = false) :
    hasTok ((run_engine cn rn et ut h ss gen).assistant_text.data) = false := by
  by_cases hss : (ss == "done") = true
  · obtain rfl : ss = "done" := by simpa using hss
    exact (by decide :
      hasTok "This session is already complete. Please create a new session.".data = false)
  · have hss' : (ss == "done") = false := by
      cases hb : (ss == "done")
      · rfl
      · exact absurd hb hss
    by_cases hc : ((_parse (rawTextOf cn rn et ss ut h gen)).1 == "" ||
        decide ((_parse (rawTextOf cn rn et ss ut h gen)).1.length < 3)) = true
    · rw [run_engine_eq cn rn et ut h ss gen hss']
      simp only [hc, if_true]
      split <;> decide
    · have hc' : ((_parse (rawTextOf cn rn et ss ut h gen)).1 == "" ||
          decide ((_parse (rawTextOf cn rn et ss ut h gen)).1.length < 3)) = false := by
        cases hb : ((_parse (rawTextOf cn rn et ss ut h gen)).1 == "" ||
            decide ((_parse (rawTextOf cn rn et ss ut h gen)).1.length < 3))
        · rfl
        · exact absurd hb hc
      rw [run_engine_eq cn rn et ut h ss gen hss']
      simp only [hc', Bool.false_eq_true, if_false]
      exact hasTok_false_mono (cleanText_shrinks _) hclean

theorem c10_no_token_leak_witness :
    hasTok ((run_engine "Ada" "Engineer" "user_turn" "hi" [] "intro"
      (fun _ _ => .success "Nice to meet you! What drew you here? <<<STAY>>>")).assistant_text.data) =
      false :=
  c10_no_token_leak "Ada" "Engineer" "user_turn" "hi" [] "intro"
    (fun _ _ => .success "Nice to meet you! What drew you here? <<<STAY>>>") (by decide)

theorem suffix_data_append (a b : String) {t : List Char} (h : t <:+ b.data) :
    t <:+ (a ++ b).data := by
  rw [String.data_append]
  exact h.trans (List.suffix_append a.data b.data)

/-- Claim C6: the fallback loop tries the three candidate models in order,
stops at the first success, advances past rate-limit errors, stops
immediately on any other error, and substitutes the stage-keyed canned
reply when exhausted or stopped by a non-retryable error; the canned
replies end with the `STAY` token for intro and experience and the
`MOVE_TO_DONE` token for the done wrap-up, and the orchestrator still
returns non-empty text when every attempt is rate-limited. -/
theorem c6_generation_fallback :
    (∀ (c : List Content) (t : String) (gen : Nat → List Content → GenOutcome),
      tryModels MODEL_FALLBACKS (fun j cc => if j == 0 then .success t else gen j cc) c 0 =
        (t, false)) ∧
    (∀ (c : List Content) (t : String) (gen : Nat → List Content → GenOutcome),
      tryModels MODEL_FALLBACKS
        (fun j cc => if j == 0 then .rateLimited else if j == 1 then .success t else gen j cc)
        c 0 = (t, false)) ∧
    (∀ (c : List Content) (t : String),
      tryModels MODEL_FALLBACKS
        (fun j _ => if j ≤ 1 then .rateLimited else .success t) c 0 = (t, false)) ∧
    (∀ (c : List Content) (gen : Nat → List Content → GenOutcome),
      tryModels MODEL_FALLBACKS (fun j cc => if j == 0 then .otherError else gen j cc) c 0 =
        ("", true)) ∧
    (∀ c : List Content,
      tryModels MODEL_FALLBACKS (fun j _ => if j == 0 then .rateLimited else .otherError) c 0 =
        ("", true)) ∧
    (∀ c : List Content,
      tryModels MODEL_FALLBACKS (fun _ _ => .rateLimited) c 0 = ("", true)) ∧
    (∀ (cn rn et ut : String) (h : List HistMsg) (ss : String),
      rawTextOf cn rn et ss ut h (fun _ _ => .rateLimited) =
        cannedReply cn rn (effectiveStage h et ss) ∧
      (run_engine cn rn et ut h ss (fun _ _ => .rateLimited)).assistant_text ≠ "") ∧
    (∀ cn rn : String,
      (tokText "STAY").data <:+ (cannedReply cn rn "intro").data ∧
      (tokText "STAY").data <:+ (cannedReply cn rn "experience").data ∧
      (tokText "MOVE_TO_DONE").data <:+ (cannedReply cn rn "done").data) := by
  refine ⟨fun c t gen => rfl, fun c t gen => rfl, fun c t => rfl, fun c gen => rfl,
    fun c => rfl, fun c => rfl,
    fun cn rn et ut h ss => ⟨rfl, run_engine_text_ne cn rn et ut h ss _⟩,
    fun cn rn => ⟨?_, ?_, ?_⟩⟩
  · exact suffix_data_append
      ("Hi " ++ cn ++ "! Welcome — I\x27m excited to chat with you about the " ++ rn)
      " position. Could you kick things off by telling me a bit about yourself? <<<STAY>>>"
      ⟨" position. Could you kick things off by telling me a bit about yourself? ".data, rfl⟩
  · exact ⟨"I\x27d love to hear about a project you\x27ve worked on recently. What was the problem you were solving, and what was your role? ".data, rfl⟩
  · exact ⟨"Thanks for a great conversation!\n\n• Strength: You communicated your ideas clearly.\n• Gap: Try to include more concrete metrics and impact.\n• Next step: Practice the STAR method for telling project stories.\n\nBest of luck — you\x27ve got this! ".data, rfl⟩

/-! ### History Normalizer lemmas -/

theorem mergePush_chain {acc : List Content} {m : Content}
    (h : List.Chain' (fun a b : Content => a.role ≠ b.role) acc) :
    List.Chain' (fun a b : Content => a.role ≠ b.role) (mergePush acc m) := by
  cases acc with
  | nil => exact List.chain'_singleton m
  | cons last rest =>
      rw [show mergePush (last :: rest) m =
        (if (last.role == m.role) = true then
          ⟨last.role, last.text ++ "\n" ++ m.text⟩ :: rest
         else m :: last :: rest) from rfl]
      by_cases hr : (last.role == m.role) = true
      · rw [if_pos hr]
        cases rest with
        | nil => exact List.chain'_singleton _
        | cons r rest' =>
            rw [List.chain'_cons] at h ⊢
            exact ⟨h.1, h.2⟩
      · rw [if_neg hr]
        rw [List.chain'_cons]
        refine ⟨fun he => ?_, h⟩
        simp only [beq_iff_eq] at hr
        exact hr he.symm

theorem foldl_mergePush_chain (raw acc : List Content)
    (h : List.Chain' (fun a b : Content => a.role ≠ b.role) acc) :
    List.Chain' (fun a b : Content => a.role ≠ b.role) (raw.foldl mergePush acc) := by
  induction raw generalizing acc with
  | nil => exact h
  | cons m raw ih => exact ih _ (mergePush_chain h)

theorem build_contents_chain (h : List HistMsg) :
    List.Chain' (fun a b : Content => a.role ≠ b.role) (_build_contents h) := by
  unfold _build_contents
  rw [List.chain'_reverse]
  exact (foldl_mergePush_chain _ _ List.chain'_nil).imp fun a b hab => Ne.symm hab

theorem buildRaw_roles (h : List HistMsg) :
    ∀ c ∈ buildRaw h, c.role = "user" ∨ c.role = "model" := by
  induction h with
  | nil => intro c hc; simp [buildRaw] at hc
  | cons m rest ih =>
      intro c hc
      cases hag : m.role == "agent" with
      | false =>
          simp only [buildRaw, hag, Bool.false_eq_true, if_false, beq_self_eq_true,
            if_true, String.reduceBEq] at hc
          split at hc
          · exact ih c hc
          · split at hc
            · exact ih c hc
            · rcases List.mem_cons.mp hc with rfl | hm
              · exact Or.inl rfl
              · exact ih c hm
      | true =>
          simp only [buildRaw, hag, Bool.false_eq_true, if_false, beq_self_eq_true,
            if_true, String.reduceBEq] at hc
          split at hc
          · exact ih c hc
          · split at hc
            · exact ih c hc
            · rcases List.mem_cons.mp hc with rfl | hm
              · exact Or.inr rfl
              · exact ih c hm

theorem mergePush_roles {acc : List Content} {m c : Content}
    (hacc : ∀ x ∈ acc, x.role = "user" ∨ x.role = "model")
    (hm : m.role = "user" ∨ m.role = "model")
    (hc : c ∈ mergePush acc m) : c.role = "user" ∨ c.role = "model" := by
  cases acc with
  | nil =>
      simp only [mergePush, List.mem_singleton] at hc
      exact hc ▸ hm
  | cons last rest =>
      rw [show mergePush (last :: rest) m =
        (if (last.role == m.role) = true then
          ⟨last.role, last.text ++ "\n" ++ m.text⟩ :: rest
         else m :: last :: rest) from rfl] at hc
      split at hc
      · rcases List.mem_cons.mp hc with rfl | hm2
        · exact hacc last (by simp)
        · exact hacc c (List.mem_cons_of_mem _ hm2)
      · rcases List.mem_cons.mp hc with rfl | hm2
        · exact hm
        · exact hacc c hm2

theorem foldl_mergePush_roles (raw : List Content) :
    ∀ acc : List Content, (∀ x ∈ acc, x.role = "user" ∨ x.role = "model") →
    (∀ x ∈ raw, x.role = "user" ∨ x.role = "model") →
    ∀ c ∈ raw.foldl mergePush acc, c.role = "user" ∨ c.role = "model" := by
  induction raw with
  | nil => intro acc hacc _ c hc; exact hacc c hc
  | cons m raw ih =>
      intro acc hacc hraw c hc
      exact ih (mergePush acc m)
        (fun x hx => mergePush_roles hacc (hraw m (by simp)) hx)
        (fun x hx => hraw x (List.mem_cons_of_mem _ hx)) c hc

theorem build_contents_roles (h : List HistMsg) :
    ∀ c ∈ _build_contents h, c.role = "user" ∨ c.role = "model" := by
  intro c hc
  unfold _build_contents at hc
  rw [List.mem_reverse] at hc
  exact foldl_mergePush_roles _ [] (by simp) (buildRaw_roles h) c hc

theorem ensureUserFirst_head {c : Content} {rest : List Content}
    (hc : c.role = "user" ∨ c.role = "model") :
    ((ensureUserFirst (c :: rest)).head?.map Content.role) = some "user" := by
  rw [show ensureUserFirst (c :: rest) =
    (if (c.role == "model") = true then
      ⟨"user", "[Interview begins]"⟩ :: c :: rest
     else c :: rest) from rfl]
  rcases hc with hc | hc
  · rw [if_neg (by simp [hc])]
    simp [hc]
  · rw [if_pos (by simp [hc])]
    rfl

theorem assembled_head_user (cs : List Content) (msg : String)
    (hroles : ∀ c ∈ cs, c.role = "user" ∨ c.role = "model") :
    ((ensureUserFirst (appendUserMsg cs msg)).head?.map Content.role) = some "user" := by
  cases cs with
  | nil => rfl
  | cons c rest =>
      have hc := hroles c (by simp)
      cases rest with
      | nil =>
          rw [show appendUserMsg [c] msg =
            (if (c.role == "user") = true then
              [(⟨"user", c.text ++ "\n" ++ msg⟩ : Content)]
             else c :: [⟨"user", msg⟩]) from rfl]
          by_cases hu : (c.role == "user") = true
          · rw [if_pos hu]
            exact ensureUserFirst_head (Or.inl rfl)
          · rw [if_neg hu]
            exact ensureUserFirst_head hc
      | cons r rest' =>
          cases hL : (r :: rest').getLast? with
          | none =>
              rw [List.getLast?_eq_none_iff] at hL
              exact absurd hL (by simp)
          | some L =>
              rw [show appendUserMsg (c :: r :: rest') msg =
                (match (c :: r :: rest' : List Content).getLast? with
                 | some lastC =>
                    if (lastC.role == "user") = true then
                      (c :: r :: rest').dropLast ++ [⟨"user", lastC.text ++ "\n" ++ msg⟩]
                    else (c :: r :: rest') ++ [⟨"user", msg⟩]
                 | none => [⟨"user", msg⟩]) from rfl,
                List.getLast?_cons_cons, hL]
              simp only
              split
              · rw [List.dropLast_cons₂, List.cons_append]
                exact ensureUserFirst_head hc
              · rw [List.cons_append]
                exact ensureUserFirst_head hc

/-- Claim C5 (amended): the History Normalizer output never has two
adjacent entries of equal role; the first-entry-is-user property holds not
of the normalizer output itself but of the contents the orchestrator
assembles from it by appending the current user message and prepending a
synthetic opener when the sequence would start with a model entry. -/
theorem c5_normalizer_alternation (h : List HistMsg) :
    List.Chain' (fun a b : Content => a.role ≠ b.role) (_build_contents h) ∧
    (∀ et ss st ut, ((fullContents h et ss st ut).head?.map Content.role) = some "user") := by
  refine ⟨build_contents_chain h, fun et ss st ut => ?_⟩
  unfold fullContents
  exact assembled_head_user _ _ (build_contents_roles h)

/-- Claim C5 fails as stated: on a history beginning with an agent record
the normalizer output is non-empty and its first entry has role `model`,
not `user` (the orchestrator only fixes this up later when assembling the
request). -/
theorem c5_counterexample :
    (_build_contents [⟨"agent", "intro", "Hello!"⟩]).head?.map Content.role = some "model" ∧
    ¬((_build_contents [⟨"agent", "intro", "Hello!"⟩]).head?.map Content.role = some "user") := by
  decide

/-! ### Idempotent-handler lemmas -/

theorem lastAgentText_concat (msgs : List Msg) (m : Msg) (hm : (m.role == "agent") = true) :
    lastAgentText (msgs ++ [m]) = m.text := by
  unfold lastAgentText
  rw [List.filter_append,
    show List.filter (fun x => x.role == "agent") [m] = [m] from by simp [hm],
    List.getLast?_concat]

theorem handle_dedup (st : ServerState) (et ut eid : String) (el iT eT : Nat)
    (gen : Nat → List Content → GenOutcome)
    (h1 : (eid != "") = true)
    (h2 : (st.messages.any fun m => m.eventId == some eid) = true) :
    _handle_next_turn st et ut eid el iT eT gen =
      (.ok (lastAgentText st.messages, (markRunning st.session).stage,
        (markRunning st.session).stage == "done"),
       ⟨markRunning st.session, st.messages⟩) := by
  unfold _handle_next_turn
  rw [if_pos (by rw [h1, h2]; rfl)]

/-- Claim C8: an event whose id already tags a persisted message makes the
handler return the latest agent text for the session with the state
unchanged and no engine call (the result does not depend on the generation
oracle); consequently a second delivery of an event id that produced a
successful turn returns the same assistant text and persists nothing. -/
theorem c8_idempotent_handler :
    (∀ (st : ServerState) (et ut eid : String) (el iT eT : Nat)
        (gen : Nat → List Content → GenOutcome),
      (eid != "") = true →
      (st.messages.any fun m => m.eventId == some eid) = true →
      _handle_next_turn st et ut eid el iT eT gen =
        (.ok (lastAgentText st.messages, (markRunning st.session).stage,
          (markRunning st.session).stage == "done"),
         ⟨markRunning st.session, st.messages⟩)) ∧
    (∀ (st : ServerState) (et ut eid : String) (el iT eT : Nat)
        (gen : Nat → List Content → GenOutcome)
        (r : String × String × Bool) (st2 : ServerState),
      (eid != "") = true →
      _handle_next_turn st et ut eid el iT eT gen = (.ok r, st2) →
      ∀ (et2 ut2 : String) (el2 iT2 eT2 : Nat) (gen2 : Nat → List Content → GenOutcome),
        (_handle_next_turn st2 et2 ut2 eid el2 iT2 eT2 gen2).1 =
          .ok (r.1, (markRunning st2.session).stage,
            (markRunning st2.session).stage == "done") ∧
        (_handle_next_turn st2 et2 ut2 eid el2 iT2 eT2 gen2).2.messages = st2.messages) := by
  refine ⟨fun st et ut eid el iT eT gen h1 h2 =>
    handle_dedup st et ut eid el iT eT gen h1 h2, ?_⟩
  intro st et ut eid el iT eT gen r st2 h1 hrun et2 ut2 el2 iT2 eT2 gen2
  by_cases hdup : (st.messages.any fun m => m.eventId == some eid) = true
  · rw [handle_dedup st et ut eid el iT eT gen h1 hdup, Prod.mk.injEq] at hrun
    obtain ⟨hfst, hsnd⟩ := hrun
    have hr : (lastAgentText st.messages, (markRunning st.session).stage,
        (markRunning st.session).stage == "done") = r := Except.ok.inj hfst
    have hmsgs : st2.messages = st.messages := by rw [← hsnd]
    have hany2 : (st2.messages.any fun m => m.eventId == some eid) = true := by
      rw [hmsgs]; exact hdup
    rw [handle_dedup st2 et2 ut2 eid el2 iT2 eT2 gen2 h1 hany2]
    refine ⟨?_, rfl⟩
    rw [hmsgs, ← hr]
  · have hc : (eid != "" && st.messages.any fun m => m.eventId == some eid) = false := by
      cases hb : (st.messages.any fun m => m.eventId == some eid)
      · simp [hb]
      · exact absurd hb hdup
    unfold _handle_next_turn at hrun
    rw [if_neg (by rw [hc]; simp)] at hrun
    by_cases hval : (et == "user_turn" && ut == "") = true
    · rw [if_pos hval] at hrun
      have := congrArg Prod.fst hrun
      simp at this
    · rw [if_neg hval] at hrun
      rw [show handleMain st et ut eid el iT eT gen =
        (.ok ((mainOut st et ut eid el iT eT gen).assistant_text,
              (mainOut st et ut eid el iT eT gen).next_stage,
              (mainOut st et ut eid el iT eT gen).done),
         ⟨{ markRunning st.session with
              stage := (mainOut st et ut eid el iT eT gen).next_stage,
              status := if (mainOut st et ut eid el iT eT gen).done then "ended"
                else (markRunning st.session).status },
          userRecorded st et ut eid ++
            [⟨"agent", (mainOut st et ut eid el iT eT gen).next_stage,
              (mainOut st et ut eid el iT eT gen).assistant_text,
              if eid != "" then some eid else none⟩]⟩) from rfl,
        Prod.mk.injEq] at hrun
      obtain ⟨hfst, hsnd⟩ := hrun
      have hr : ((mainOut st et ut eid el iT eT gen).assistant_text,
          (mainOut st et ut eid el iT eT gen).next_stage,
          (mainOut st et ut eid el iT eT gen).done) = r := Except.ok.inj hfst
      have hmsgs : st2.messages =
          userRecorded st et ut eid ++
            [⟨"agent", (mainOut st et ut eid el iT eT gen).next_stage,
              (mainOut st et ut eid el iT eT gen).assistant_text,
              if eid != "" then some eid else none⟩] := by
        rw [← hsnd]
      have heid : eid ≠ "" := by simpa using h1
      have hany2 : (st2.messages.any fun m => m.eventId == some eid) = true := by
        rw [hmsgs, List.any_append]
        simp [heid]
      rw [handle_dedup st2 et2 ut2 eid el2 iT2 eT2 gen2 h1 hany2]
      refine ⟨?_, rfl⟩
      rw [hmsgs, lastAgentText_concat _ _ (by rfl), ← hr]

theorem c8_idempotent_handler_witness :
    (_handle_next_turn
        ⟨⟨"Ada", "Engineer", "experience", "running"⟩,
         [⟨"user", "experience", "hi", some "e1"⟩,
          ⟨"agent", "experience", "Tell me more.", some "e1"⟩]⟩
        "user_turn" "hi again" "e1" 0 600 900 (fun _ _ => .success "IGNORED <<<STAY>>>") =
      (.ok ("Tell me more.", "experience", false),
       ⟨⟨"Ada", "Engineer", "experience", "running"⟩,
        [⟨"user", "experience", "hi", some "e1"⟩,
         ⟨"agent", "experience", "Tell me more.", some "e1"⟩]⟩)) ∧
    ((_handle_next_turn
        ⟨⟨"Ada", "Engineer", "experience", "running"⟩,
         [⟨"user", "experience", "hi", some "e1"⟩,
          ⟨"agent", "experience", "Tell me more.", some "e1"⟩]⟩
        "user_turn" "one more" "e1" 0 600 900 (fun _ _ => .success "IGNORED2 <<<STAY>>>")).1 =
      .ok ("Tell me more.", "experience", false) ∧
     (_handle_next_turn
        ⟨⟨"Ada", "Engineer", "experience", "running"⟩,
         [⟨"user", "experience", "hi", some "e1"⟩,
          ⟨"agent", "experience", "Tell me more.", some "e1"⟩]⟩
        "user_turn" "one more" "e1" 0 600 900 (fun _ _ => .success "IGNORED2 <<<STAY>>>")).2.messages =
      [⟨"user", "experience", "hi", some "e1"⟩,
       ⟨"agent", "experience", "Tell me more.", some "e1"⟩]) :=
  ⟨c8_idempotent_handler.1
      ⟨⟨"Ada", "Engineer", "experience", "running"⟩,
       [⟨"user", "experience", "hi", some "e1"⟩,
        ⟨"agent", "experience", "Tell me more.", some "e1"⟩]⟩
      "user_turn" "hi again" "e1" 0 600 900 (fun _ _ => .success "IGNORED <<<STAY>>>")
      (by decide) (by decide),
   c8_idempotent_handler.2
      ⟨⟨"Ada", "Engineer", "experience", "running"⟩,
       [⟨"user", "experience", "hi", some "e1"⟩,
        ⟨"agent", "experience", "Tell me more.", some "e1"⟩]⟩
      "user_turn" "hi again" "e1" 0 600 900 (fun _ _ => .success "IGNORED <<<STAY>>>")
      ("Tell me more.", "experience", false)
      ⟨⟨"Ada", "Engineer", "experience", "running"⟩,
       [⟨"user", "experience", "hi", some "e1"⟩,
        ⟨"agent", "experience", "Tell me more.", some "e1"⟩]⟩
      (by decide) (by rfl)
      "user_turn" "one more" 0 600 900 (fun _ _ => .success "IGNORED2 <<<STAY>>>")⟩

end InterviewOS
